import Mathlib

/-!
Shallow embedding of the crawl-and-extract engine of `src/D_Z/main_d_z.py`
(class `UniversalQuoteParser` and the `retry_on_failure` decorator), together
with theorems settling the frozen claims about it.

Python strings are modelled as lists of code points (`PyStr := List Nat`);
`str.lower`/`str.upper` are modelled by the ASCII simple case mapping (code
points outside the ASCII letters are fixed), `str.strip` by dropping the
ASCII whitespace code points from both ends, and `len` by list length.
BeautifulSoup is an external collaborator: a parsed page (`Soup`) and a
container element are modelled by their `select`/`select_one` query
functions, and `get_text(strip=True)` by a text field of the element.
The MD5 digest of `_generate_quote_hash` is a deterministic function of the
string it is applied to, so the fingerprint is modelled by that string
itself (`"{text.strip().lower()}|{author.strip().lower()}"`): equality of
the modelled fingerprints coincides with equality of the digests (up to MD5
collisions, which only identify more strings, never fewer).
-/

namespace DZ

/-- A Python string, as its sequence of code points. -/
abbrev PyStr := List Nat

/-- Code points of a Lean string literal, for concrete inputs. -/
def pyStr (s : String) : PyStr := s.toList.map Char.toNat

/-- ASCII whitespace code points (tab, LF, VT, FF, CR, space); models the
characters removed by Python `str.strip()` and matched by `\s`. -/
def pyIsSpaceCode (n : Nat) : Bool :=
  decide (n = 9 ∨ n = 10 ∨ n = 11 ∨ n = 12 ∨ n = 13 ∨ n = 32)

/-- ASCII simple lower-casing of one code point; models `str.lower` per
character (code points outside `A`–`Z` are fixed). -/
def pyLowerCode (n : Nat) : Nat := if 65 ≤ n ∧ n ≤ 90 then n + 32 else n

/-- ASCII simple upper-casing of one code point; models `str.upper` per
character (code points outside `a`–`z` are fixed). -/
def pyUpperCode (n : Nat) : Nat := if 97 ≤ n ∧ n ≤ 122 then n - 32 else n

/-- Models Python `str.lower()`. -/
def pyLower (s : PyStr) : PyStr := s.map pyLowerCode

/-- Models Python `str.upper()`. -/
def pyUpper (s : PyStr) : PyStr := s.map pyUpperCode

/-- Models Python `str.strip()`: remove whitespace from both ends. -/
def pyStrip (s : PyStr) : PyStr :=
  ((s.dropWhile pyIsSpaceCode).reverse.dropWhile pyIsSpaceCode).reverse

/-- ASCII digit code point; models `str.isdigit` per character. -/
def pyIsDigitCode (n : Nat) : Bool := decide (48 ≤ n ∧ n ≤ 57)

/-- ASCII letter code point. -/
def pyIsAlphaCode (n : Nat) : Bool :=
  decide ((65 ≤ n ∧ n ≤ 90) ∨ (97 ≤ n ∧ n ≤ 122))

/-- Alphanumeric code point. -/
def pyIsAlnumCode (n : Nat) : Bool := pyIsAlphaCode n || pyIsDigitCode n

/-- Word code point as matched by the regex class `\w` (letters, digits and
the underscore, code point 95). -/
def pyIsWordCode (n : Nat) : Bool := pyIsAlnumCode n || decide (n = 95)

/-- Models Python `str.isdigit()`: non-empty and all digits. -/
def pyIsDigitStr (s : PyStr) : Bool := !s.isEmpty && s.all pyIsDigitCode

/-- `main_d_z.py` line 27: the configuration fields consumed by the core
(`_validate_config` never overrides these two, so every run uses the
defaults below). -/
structure Config where
  min_quote_length : Nat
  max_quote_length : Nat

/-- `main_d_z.py` line 27: `DEFAULT_CONFIG` (the fields used by the core). -/
def DEFAULT_CONFIG : Config := ⟨10, 1000⟩

/-- `main_d_z.py` lines 230–233, `_generate_quote_hash`: the deduplication
fingerprint, modelled by the hashed content string
`f"{quote_text.strip().lower()}|{author.strip().lower()}"`
(124 is the code point of the separator bar). -/
def generate_quote_hash (quote_text author : PyStr) : PyStr :=
  pyLower (pyStrip quote_text) ++ 124 :: pyLower (pyStrip author)

/-- `main_d_z.py` lines 419–420: number of characters matched by
`re.findall` of the class excluding word and whitespace characters. -/
def specialCharCount (s : PyStr) : Nat :=
  (s.filter (fun n => !(pyIsWordCode n || pyIsSpaceCode n))).length

/-- `main_d_z.py` lines 412–423, `_validate_quote_content`. The float test
`special_chars > len(quote_text) * 0.3` is modelled by the exact rational
comparison `10 * special_chars > 3 * len`; the two agree for every length
for which the rounding error of the double product (below `2⁻⁴⁴` per unit
for lengths under `2⁵³`) is smaller than the gap `1/10` between the integer
count and the threshold. -/
def validate_quote_content (quote_text : PyStr) : Bool :=
  if pyIsDigitStr quote_text then false
  else if 3 * quote_text.length < 10 * specialCharCount quote_text then false
  else true

/-- The record built by `_create_quote_object` (`main_d_z.py` lines
404–410); `timestamp` stands for the `datetime.now().isoformat()` string,
supplied by the environment. -/
structure Quote where
  quote : PyStr
  author : PyStr
  tags : List PyStr
  tags_count : Nat
  timestamp : String

/-- `main_d_z.py` lines 387–410, `_create_quote_object`: strip both
fields, reject on length bounds, reject on content validation, otherwise
build the record. -/
def create_quote_object (cfg : Config) (quote_text author : PyStr)
    (tags : List PyStr) (ts : String) : Option Quote :=
  let qt := pyStrip quote_text
  let a := pyStrip author
  if qt.length < cfg.min_quote_length ∨ cfg.max_quote_length < qt.length then
    none
  else if !validate_quote_content qt then none
  else some ⟨qt, a, tags, tags.length, ts⟩

/-- `main_d_z.py` lines 425–432, `_is_unique_quote`: membership test on the
fingerprint set `self.quote_hashes` (modelled as the list of fingerprints
registered so far), registering the fingerprint when new. Returns the
boolean answer together with the updated set. -/
def is_unique_quote (hashes : List PyStr) (q : Quote) : Bool × List PyStr :=
  let h := generate_quote_hash q.quote q.author
  if h ∈ hashes then (false, hashes) else (true, h :: hashes)

/-- Fingerprint of a built record, as `_is_unique_quote` computes it. -/
def fingerprintOf (q : Quote) : PyStr := generate_quote_hash q.quote q.author

/-- Driver used to state properties of `_is_unique_quote`: feed candidate
records through it in order, keeping the accepted ones — exactly the accept
test `if quote_obj and self._is_unique_quote(quote_obj)` of `parse_quotes`
iterated over a list of already-built records. -/
def dedupRun (hashes : List PyStr) : List Quote → List Quote × List PyStr
  | [] => ([], hashes)
  | q :: qs =>
    let r := is_unique_quote hashes q
    let rest := dedupRun r.2 qs
    (if r.1 then q :: rest.1 else rest.1, rest.2)

/-! ## DOM collaborator model and the record extractor -/

/-- A BeautifulSoup element as the extractor consumes it: its
`get_text(strip=True)` result and its `href` attribute (`none` when the
attribute is absent). -/
structure Elem where
  text : PyStr
  href : Option String

/-- A container element (one `quote_containers` entry): its `select_one`
and `select` query functions over CSS selector strings. -/
structure Container where
  selectOne : String → Option Elem
  selectAll : String → List Elem

/-- A parsed page (`BeautifulSoup(html, "html.parser")`): its `select`
query for containers and its `select_one` query for the next-page link. -/
structure Soup where
  select : String → List Container
  selectOne : String → Option Elem

/-- A selector registry entry: either a single selector string (as in the
`toscrape` profile) or a list of candidates (as in the generic fallback). -/
inductive SelectorSpec where
  | one (s : String)
  | many (ss : List String)
deriving DecidableEq

/-- The per-field selector mapping handed around as `selectors`. -/
structure SelectorSet where
  quotes : SelectorSpec
  text : SelectorSpec
  author : SelectorSpec
  tags : SelectorSpec
  next_page : SelectorSpec
deriving DecidableEq

/-- `main_d_z.py` lines 356–360, `_ensure_list`: a list is returned as is;
a single selector becomes a one-element list, or the empty list when the
selector is falsy (the empty string). -/
def ensure_list : SelectorSpec → List String
  | .one s => if s = "" then [] else [s]
  | .many l => l

/-- `main_d_z.py` lines 52–64: the `selectors` entry of the single
`SUPPORTED_SITES` profile (plain selector strings). -/
def toscrapeSelectors : SelectorSet :=
  ⟨.one "div.quote", .one "span.text", .one "small.author", .one "a.tag",
   .one "li.next a"⟩

/-- `main_d_z.py` lines 305–311: the generic fallback selector lists
returned by `detect_site_type` for unknown sites. -/
def fallbackSelectors : SelectorSet :=
  ⟨.many [".quote", "[class*=\x27quote\x27]", "blockquote"],
   .many [".text", ".quote-text", "span", "p"],
   .many [".author", ".quote-author", "cite", "small"],
   .many [".tag", ".tags", ".keywords"],
   .many [".next", "[rel=\x27next\x27]", ".pagination-next"]⟩

/-- `main_d_z.py` lines 52–64: `SUPPORTED_SITES`, as the list of
`(base_url, selectors)` pairs iterated by `detect_site_type`. -/
def SUPPORTED_SITES : List (String × SelectorSet) :=
  [("http://quotes.toscrape.com", toscrapeSelectors)]

/-- Does `needle` occur at the start of `hay`? -/
def isStartOf : List Char → List Char → Bool
  | [], _ => true
  | _ :: _, [] => false
  | c :: cs, d :: ds => c == d && isStartOf cs ds

/-- Does `needle` occur as a contiguous run anywhere in `hay`? Models the
Python substring test `needle in hay`. -/
def occursIn (needle : List Char) : List Char → Bool
  | [] => needle.isEmpty
  | d :: ds => isStartOf needle (d :: ds) || occursIn needle ds

/-- Stated from the claim's words, for comparison with the code: the
"exact or prefix match on base URL" test the claim attributes to the
selector resolver. -/
def claimMatchesBase (url base : String) : Bool :=
  url = base || isStartOf base.toList url.toList

/-- The registry scan of `detect_site_type` (`main_d_z.py` lines 298–301):
the first profile whose `base_url` is a substring of the seed URL. -/
def detectLoop (url : String) : List (String × SelectorSet) → Option SelectorSet
  | [] => none
  | (base, sel) :: rest =>
    if occursIn base.toList url.toList then some sel else detectLoop url rest

/-- `main_d_z.py` lines 296–311, `detect_site_type`: the matched profile's
selectors, or the generic fallback set when no profile matches. -/
def detect_site_type (url : String) : SelectorSet :=
  (detectLoop url SUPPORTED_SITES).getD fallbackSelectors

/-- `main_d_z.py` lines 362–372, `_find_element_text` (inner loop over the
already-listed selectors): the first selector that is not falsy, matches an
element, and yields non-empty stripped text wins. -/
def findTextLoop (c : Container) : List String → Option PyStr
  | [] => none
  | s :: rest =>
    if s = "" then findTextLoop c rest
    else
      match c.selectOne s with
      | none => findTextLoop c rest
      | some el => if el.text.isEmpty then findTextLoop c rest else some el.text

/-- `main_d_z.py` lines 362–372, `_find_element_text`. -/
def find_element_text (c : Container) (spec : SelectorSpec) : Option PyStr :=
  findTextLoop c (ensure_list spec)

/-- `main_d_z.py` lines 381–384: the inner loop of `_find_tags`, appending
each matched element's non-empty stripped text to the accumulated list. -/
def findTagsElemLoop (acc : List PyStr) : List Elem → List PyStr
  | [] => acc
  | el :: rest =>
    findTagsElemLoop (if el.text.isEmpty then acc else acc ++ [el.text]) rest

/-- `main_d_z.py` lines 374–385: the outer loop of `_find_tags` over the
selector candidates, skipping falsy selectors. -/
def findTagsLoop (c : Container) (acc : List PyStr) : List String → List PyStr
  | [] => acc
  | s :: rest =>
    if s = "" then findTagsLoop c acc rest
    else findTagsLoop c (findTagsElemLoop acc (c.selectAll s)) rest

/-- `main_d_z.py` lines 374–385, `_find_tags`. -/
def find_tags (c : Container) (spec : SelectorSpec) : List PyStr :=
  findTagsLoop c [] (ensure_list spec)

/-- `main_d_z.py` lines 319–325: the container-selector loop of
`parse_quotes` — starting from the empty `quote_containers`, extend with
the first candidate's matches and break as soon as one candidate matches. -/
def findContainersLoop (soup : Soup) : List String → List Container
  | [] => []
  | s :: rest =>
    let cs := soup.select s
    if cs.isEmpty then findContainersLoop soup rest else cs

/-- `main_d_z.py` lines 331–351: the per-container body of `parse_quotes`
— find the text (skip the container when none), default the author to
`"Unknown"`, collect the tags, build and validate the record, and keep it
only when unique. Returns the emitted record (if any) and the updated
fingerprint set. In the pure model no per-container exception can occur,
so the `try`/`except ... continue` wrapper has no counterpart. -/
def processContainer (cfg : Config) (sel : SelectorSet) (ts : String)
    (c : Container) (hashes : List PyStr) : Option Quote × List PyStr :=
  match find_element_text c sel.text with
  | none => (none, hashes)
  | some quote_text =>
    let author_text := (find_element_text c sel.author).getD (pyStr "Unknown")
    let tags := find_tags c sel.tags
    match create_quote_object cfg quote_text author_text tags ts with
    | none => (none, hashes)
    | some q =>
      let r := is_unique_quote hashes q
      if r.1 then (some q, r.2) else (none, r.2)

/-- The container loop of `parse_quotes` accumulating `quotes_data`. -/
def parseContainersLoop (cfg : Config) (sel : SelectorSet) (ts : String) :
    List Container → List Quote → List PyStr → List Quote × List PyStr
  | [], acc, hashes => (acc, hashes)
  | c :: rest, acc, hashes =>
    let r := processContainer cfg sel ts c hashes
    parseContainersLoop cfg sel ts rest (acc ++ r.1.toList) r.2

/-- `main_d_z.py` lines 313–354, `parse_quotes`: records extracted from one
page, together with the updated fingerprint set (`self.quote_hashes`). -/
def parse_quotes (cfg : Config) (soup : Soup) (sel : SelectorSet)
    (ts : String) (hashes : List PyStr) : List Quote × List PyStr :=
  parseContainersLoop cfg sel ts
    (findContainersLoop soup (ensure_list sel.quotes)) [] hashes

/-- `main_d_z.py` lines 438–443: the selector loop of `has_next_page`; an
element with a falsy (absent or empty) `href` lets the loop continue. -/
def hasNextLoop (soup : Soup) : List String → Option String
  | [] => none
  | s :: rest =>
    match soup.selectOne s with
    | none => hasNextLoop soup rest
    | some el =>
      match el.href with
      | none => hasNextLoop soup rest
      | some h => if h = "" then hasNextLoop soup rest else some h

/-- `main_d_z.py` lines 434–446, `has_next_page`. -/
def has_next_page (soup : Soup) (sel : SelectorSet) : Option String :=
  hasNextLoop soup (ensure_list sel.next_page)

/-! ## Retry policy and the pagination walker -/

/-- `main_d_z.py` lines 169–185: the attempt loop of `retry_on_failure`,
with `rem` attempts remaining after the current one. `f i` is the outcome
of 0-indexed attempt `i` of the wrapped call (the collaborator fetch); on
the last attempt the loop breaks and the final error is re-raised. -/
def retryGo {ε α : Type} (f : Nat → Except ε α) : Nat → Nat → Except ε α
  | attempt, 0 => f attempt
  | attempt, rem + 1 =>
    match f attempt with
    | .ok a => .ok a
    | .error _ => retryGo f (attempt + 1) rem

/-- `main_d_z.py` lines 163–189, `retry_on_failure`: up to `max_retries`
attempts in total, surfacing the last error on exhaustion. Faithful for
`max_retries ≥ 1` (the configuration clamps it to 1–10 and `fetch_page`
uses 3); the backoff sleeps have no observable effect in this model. -/
def retry_on_failure {ε α : Type} (max_retries : Nat)
    (f : Nat → Except ε α) : Except ε α :=
  retryGo f 0 (max_retries - 1)

/-- `main_d_z.py` lines 266–294, `fetch_page`: the retry-wrapped page
fetch. `attempts url i` is the collaborator outcome of attempt `i` at
`url` (a parsed page on success, the raised exception on failure). -/
def fetch_page {ε : Type} (max_retries : Nat)
    (attempts : String → Nat → Except ε Soup) (url : String) : Except ε Soup :=
  retry_on_failure max_retries (attempts url)

/-- The `self.stats` counters mutated by the walker. -/
structure RunStats where
  total_pages : Nat
  total_quotes : Nat
  failed_requests : Nat
deriving DecidableEq

/-- The parser state owned by `UniversalQuoteParser` and mutated by
`parse_all_pages` (`visited_urls`, `all_quotes`, `quote_hashes`, `stats`). -/
structure ParserState where
  visited_urls : List String
  all_quotes : List Quote
  quote_hashes : List PyStr
  stats : RunStats

/-- `__init__` (`main_d_z.py` lines 218–226): the fresh parser state. -/
def initialState : ParserState := ⟨[], [], [], ⟨0, 0, 0⟩⟩

/-- Outcome of a walk: the final state, the URLs fetched in order, and
whether the loop exited through one of its own exits (`finished = false`
only when the step budget ran out, which the unbounded source loop does
not have). -/
structure WalkOut where
  state : ParserState
  fetched : List String
  finished : Bool

/-- `main_d_z.py` lines 476–484: the successful-fetch part of one loop
iteration — record the URL as visited, extract and deduplicate the page's
records, extend `all_quotes`, and update the page/quote counters. -/
def pageStep (cfg : Config) (sel : SelectorSet) (ts : String)
    (st : ParserState) (url : String) (soup : Soup) : ParserState :=
  let pq := parse_quotes cfg soup sel ts st.quote_hashes
  ⟨url :: st.visited_urls,
   st.all_quotes ++ pq.1,
   pq.2,
   ⟨st.stats.total_pages + 1, st.stats.total_quotes + pq.1.length,
    st.stats.failed_requests⟩⟩

/-- `main_d_z.py` lines 466–506: the `while` loop of `parse_all_pages`,
indexed by a step budget (the unbounded source loop corresponds to a budget
large enough that the `finished` flag comes out `true`). One iteration:
stop when the current URL is null or already visited; fetch it (on failure
increment `failed_requests` and break); apply `pageStep`; locate the
next-page link and resolve it against the current URL (`resolve` models
`urllib.parse.urljoin`), or break when there is none. -/
def parseAllPagesLoop (cfg : Config) (fetchPage : String → Except String Soup)
    (resolve : String → String → String) (sel : SelectorSet) (ts : String) :
    Nat → ParserState → Option String → WalkOut
  | 0, st, _ => ⟨st, [], false⟩
  | _ + 1, st, none => ⟨st, [], true⟩
  | fuel + 1, st, some url =>
    if url ∈ st.visited_urls then ⟨st, [], true⟩
    else
      match fetchPage url with
      | .error _ =>
        ⟨{ st with stats :=
            { st.stats with failed_requests := st.stats.failed_requests + 1 } },
         [], true⟩
      | .ok soup =>
        match has_next_page soup sel with
        | none => ⟨pageStep cfg sel ts st url soup, [url], true⟩
        | some np =>
          let r := parseAllPagesLoop cfg fetchPage resolve sel ts fuel
            (pageStep cfg sel ts st url soup) (some (resolve url np))
          ⟨r.state, url :: r.fetched, r.finished⟩

/-- `main_d_z.py` lines 448–509, `parse_all_pages`: resolve the selector
set for the seed URL and run the pagination loop from it. -/
def parse_all_pages (cfg : Config) (fetchPage : String → Except String Soup)
    (resolve : String → String → String) (ts : String) (st : ParserState)
    (start_url : String) (fuel : Nat) : WalkOut :=
  parseAllPagesLoop cfg fetchPage resolve (detect_site_type start_url) ts
    fuel st (some start_url)

/-! ## Concrete fixtures for the witness instances -/

/-- Fixture: a container none of whose sub-element queries match. -/
def bareContainer : Container := ⟨fun _ => none, fun _ => []⟩

/-- Fixture: a page on which only the container selector `"b"` matches. -/
def pageOnlyB : Soup :=
  ⟨fun s => if s = "b" then [bareContainer] else [], fun _ => none⟩

/-- Fixture: a selector set whose container candidates are `["a", "b"]`. -/
def selAB : SelectorSet :=
  ⟨.many ["a", "b"], .one "t", .one "au", .one "tg", .one "nx"⟩

/-- Fixture: a container on which the tag selectors `"x"` and `"y"` match
overlapping element lists. -/
def tagContainer : Container :=
  ⟨fun _ => none,
   fun s =>
     if s = "x" then [⟨pyStr "alpha", none⟩, ⟨pyStr "beta", none⟩]
     else if s = "y" then [⟨pyStr "alpha", none⟩] else []⟩

/-- Fixture: a page whose fallback `".next"` link points at the second
cycle page. -/
def cycleSoupA : Soup :=
  ⟨fun _ => [],
   fun s => if s = ".next" then some ⟨[], some "http://cycle.example/b"⟩
     else none⟩

/-- Fixture: a page whose fallback `".next"` link points back at the first
cycle page. -/
def cycleSoupB : Soup :=
  ⟨fun _ => [],
   fun s => if s = ".next" then some ⟨[], some "http://cycle.example/a"⟩
     else none⟩

/-- Fixture: the fetcher serving the two cycle pages. -/
def cycleFetch : String → Except String Soup := fun url =>
  if url = "http://cycle.example/a" then .ok cycleSoupA
  else if url = "http://cycle.example/b" then .ok cycleSoupB
  else .error "404"

/-- Stated from the claim's words, for comparison with the code: the count
of "non-alphanumeric, non-whitespace" characters named by the claim's
rejection rule. Unlike `specialCharCount` (the code's regex class
`[^\w\s]`), this counts the underscore. -/
def claimSpecialCharCount (s : PyStr) : Nat :=
  (s.filter (fun n => !(pyIsAlnumCode n || pyIsSpaceCode n))).length

/-! ## Helper lemmas on the string model -/

theorem pyLowerCode_pyUpperCode (n : Nat) :
    pyLowerCode (pyUpperCode n) = pyLowerCode n := by
  simp only [pyLowerCode, pyUpperCode]
  split_ifs <;> omega

theorem pyIsSpaceCode_pyUpperCode (n : Nat) :
    pyIsSpaceCode (pyUpperCode n) = pyIsSpaceCode n := by
  simp only [pyIsSpaceCode, pyUpperCode]
  split_ifs with h
  · rw [decide_eq_decide]; omega
  · rfl

theorem dropWhile_map {α β : Type} (p : α → Bool) (f : β → α) :
    ∀ l : List β, (l.map f).dropWhile p = (l.dropWhile (fun b => p (f b))).map f
  | [] => rfl
  | b :: l => by
    simp only [List.map_cons, List.dropWhile]
    cases h : p (f b) <;> simp [h, dropWhile_map p f l]

theorem pyLower_pyUpper (s : PyStr) : pyLower (pyUpper s) = pyLower s := by
  simp only [pyLower, pyUpper, List.map_map]
  rw [show pyLowerCode ∘ pyUpperCode = pyLowerCode from funext pyLowerCode_pyUpperCode]

theorem pyStrip_pyUpper (s : PyStr) : pyStrip (pyUpper s) = pyUpper (pyStrip s) := by
  have hp : (fun b => pyIsSpaceCode (pyUpperCode b)) = pyIsSpaceCode :=
    funext pyIsSpaceCode_pyUpperCode
  simp only [pyStrip, pyUpper, ← List.map_reverse, dropWhile_map, hp]

theorem dropWhile_append_of_all {p : Nat → Bool} :
    ∀ {ws : List Nat}, (∀ n ∈ ws, p n = true) → ∀ s : List Nat,
      (ws ++ s).dropWhile p = s.dropWhile p
  | [], _, s => rfl
  | w :: ws, h, s => by
    have hw : p w = true := h w (List.mem_cons_self w ws)
    simp only [List.cons_append, List.dropWhile, hw]
    exact dropWhile_append_of_all (fun n hn => h n (List.mem_cons_of_mem w hn)) s

theorem dropWhile_append_split (p : Nat → Bool) :
    ∀ s t : List Nat, (s ++ t).dropWhile p =
      if (s.dropWhile p).isEmpty then t.dropWhile p else s.dropWhile p ++ t
  | [], t => rfl
  | c :: s, t => by
    simp only [List.cons_append, List.dropWhile]
    cases h : p c
    · simp
    · simpa using dropWhile_append_split p s t

theorem pyStrip_pad {ws1 ws2 : List Nat} (s : PyStr)
    (h1 : ∀ n ∈ ws1, pyIsSpaceCode n = true)
    (h2 : ∀ n ∈ ws2, pyIsSpaceCode n = true) :
    pyStrip (ws1 ++ s ++ ws2) = pyStrip s := by
  simp only [pyStrip, List.append_assoc, dropWhile_append_of_all h1]
  rw [dropWhile_append_split]
  by_cases he : (s.dropWhile pyIsSpaceCode).isEmpty
  · have hs : s.dropWhile pyIsSpaceCode = [] := List.isEmpty_iff.mp he
    have hw2 : ws2.dropWhile pyIsSpaceCode = [] := by
      have := dropWhile_append_of_all h2 ([] : List Nat)
      simpa using this
    simp [he, hs, hw2]
  · have h2r : ∀ n ∈ ws2.reverse, pyIsSpaceCode n = true := by
      intro n hn; exact h2 n (List.mem_reverse.mp hn)
    simp [he, List.reverse_append, dropWhile_append_of_all h2r]

/-! ## Helper lemmas on deduplication -/

theorem dedupRun_cons_dup {p : Quote} {hs : List PyStr}
    (hm : generate_quote_hash p.quote p.author ∈ hs) (qs : List Quote) :
    dedupRun hs (p :: qs) = dedupRun hs qs := by
  simp [dedupRun, is_unique_quote, hm]

theorem dedupRun_cons_new {p : Quote} {hs : List PyStr}
    (hm : generate_quote_hash p.quote p.author ∉ hs) (qs : List Quote) :
    dedupRun hs (p :: qs) =
      (p :: (dedupRun (generate_quote_hash p.quote p.author :: hs) qs).1,
       (dedupRun (generate_quote_hash p.quote p.author :: hs) qs).2) := by
  simp [dedupRun, is_unique_quote, hm]

theorem dedupRun_accepted_fresh : ∀ (qs : List Quote) (hs : List PyStr) (q : Quote),
    q ∈ (dedupRun hs qs).1 → fingerprintOf q ∉ hs
  | [], hs, q, hq => by simp [dedupRun] at hq
  | p :: qs, hs, q, hq => by
    by_cases hm : generate_quote_hash p.quote p.author ∈ hs
    · rw [dedupRun_cons_dup hm] at hq
      exact dedupRun_accepted_fresh qs hs q hq
    · rw [dedupRun_cons_new hm] at hq
      rcases List.mem_cons.mp hq with rfl | hq2
      · exact fun hc => hm hc
      · have := dedupRun_accepted_fresh qs
          (generate_quote_hash p.quote p.author :: hs) q hq2
        exact fun hc => this (List.mem_cons_of_mem _ hc)

theorem dedupRun_nodup : ∀ (qs : List Quote) (hs : List PyStr),
    ((dedupRun hs qs).1.map fingerprintOf).Nodup
  | [], hs => by simp [dedupRun]
  | p :: qs, hs => by
    by_cases hm : generate_quote_hash p.quote p.author ∈ hs
    · rw [dedupRun_cons_dup hm]
      exact dedupRun_nodup qs hs
    · rw [dedupRun_cons_new hm]
      simp only [List.map_cons, List.nodup_cons]
      refine ⟨?_, dedupRun_nodup qs _⟩
      intro hc
      rcases List.mem_map.mp hc with ⟨q, hq, hfp⟩
      have hfresh := dedupRun_accepted_fresh qs
        (generate_quote_hash p.quote p.author :: hs) q hq
      refine hfresh ?_
      rw [show fingerprintOf q = generate_quote_hash p.quote p.author from hfp]
      exact List.mem_cons_self _ _

/-! ## Helper lemmas on the extractor -/

theorem findContainersLoop_no_match (soup : Soup) :
    ∀ sels : List String, (∀ x ∈ sels, soup.select x = []) →
      findContainersLoop soup sels = []
  | [], _ => rfl
  | s :: rest, h => by
    have hs : soup.select s = [] := h s (List.mem_cons_self s rest)
    simp only [findContainersLoop, hs, List.isEmpty_nil, if_true]
    exact findContainersLoop_no_match soup rest
      fun y hy => h y (List.mem_cons_of_mem s hy)

theorem findContainersLoop_first_match (soup : Soup) :
    ∀ (pre : List String) (s : String) (post : List String),
      (∀ x ∈ pre, soup.select x = []) → soup.select s ≠ [] →
      findContainersLoop soup (pre ++ s :: post) = soup.select s
  | [], s, post, _, hs => by
    have he : (soup.select s).isEmpty = false := by
      cases hsel : soup.select s
      · exact absurd hsel hs
      · rfl
    simp [findContainersLoop, he]
  | x :: pre, s, post, hpre, hs => by
    have hx : soup.select x = [] := hpre x (List.mem_cons_self x pre)
    simp only [List.cons_append, findContainersLoop, hx, List.isEmpty_nil, if_true]
    exact findContainersLoop_first_match soup pre s post
      (fun y hy => hpre y (List.mem_cons_of_mem x hy)) hs

theorem findTagsElemLoop_eq :
    ∀ (els : List Elem) (acc : List PyStr),
      findTagsElemLoop acc els =
        acc ++ (els.map Elem.text).filter (fun t => !t.isEmpty)
  | [], acc => by simp [findTagsElemLoop]
  | el :: els, acc => by
    cases he : el.text.isEmpty <;>
      simp [findTagsElemLoop, he, findTagsElemLoop_eq els, List.filter_cons,
        List.append_assoc]

theorem findTagsLoop_eq (c : Container) :
    ∀ (sels : List String) (acc : List PyStr),
      findTagsLoop c acc sels =
        acc ++ (sels.map (fun s => if s = "" then []
          else ((c.selectAll s).map Elem.text).filter
            (fun t => !t.isEmpty))).flatten
  | [], acc => by simp [findTagsLoop]
  | s :: rest, acc => by
    by_cases hs : s = ""
    · simp [findTagsLoop, hs, findTagsLoop_eq c rest]
    · simp [findTagsLoop, hs, findTagsLoop_eq c rest, findTagsElemLoop_eq,
        List.append_assoc]

theorem create_quote_object_eq_some {cfg : Config} {t a : PyStr}
    {tags : List PyStr} {ts : String} {q : Quote}
    (hq : create_quote_object cfg t a tags ts = some q) :
    q = ⟨pyStrip t, pyStrip a, tags, tags.length, ts⟩ ∧
    cfg.min_quote_length ≤ (pyStrip t).length ∧
    (pyStrip t).length ≤ cfg.max_quote_length := by
  simp only [create_quote_object] at hq
  split_ifs at hq with h1 h2
  cases hq
  exact ⟨rfl, by omega, by omega⟩

theorem processContainer_some {cfg : Config} {sel : SelectorSet} {ts : String}
    {c : Container} {hs : List PyStr} {q : Quote}
    (h : (processContainer cfg sel ts c hs).1 = some q) :
    ∃ qt : PyStr, find_element_text c sel.text = some qt ∧
      q = ⟨pyStrip qt,
           pyStrip ((find_element_text c sel.author).getD (pyStr "Unknown")),
           find_tags c sel.tags, (find_tags c sel.tags).length, ts⟩ ∧
      cfg.min_quote_length ≤ q.quote.length := by
  cases hf : find_element_text c sel.text with
  | none => simp [processContainer, hf] at h
  | some qt =>
    refine ⟨qt, rfl, ?_⟩
    simp only [processContainer, hf] at h
    cases hc : create_quote_object cfg qt
        ((find_element_text c sel.author).getD (pyStr "Unknown"))
        (find_tags c sel.tags) ts with
    | none => rw [hc] at h; simp at h
    | some q2 =>
      rw [hc] at h
      rcases create_quote_object_eq_some hc with ⟨hq2, hmin, hmax⟩
      by_cases hu : (is_unique_quote hs q2).1 = true
      · simp only [hu, if_true] at h
        cases h
        subst hq2
        exact ⟨rfl, hmin⟩
      · simp only [Bool.not_eq_true] at hu
        simp [hu] at h

theorem parseContainersLoop_mem (cfg : Config) (sel : SelectorSet) (ts : String) :
    ∀ (cs : List Container) (acc : List Quote) (hs : List PyStr) (q : Quote),
      q ∈ (parseContainersLoop cfg sel ts cs acc hs).1 →
      q ∈ acc ∨ ∃ (c : Container) (hs2 : List PyStr),
        (processContainer cfg sel ts c hs2).1 = some q
  | [], acc, hs, q, hq => .inl (by simpa [parseContainersLoop] using hq)
  | c :: cs, acc, hs, q, hq => by
    simp only [parseContainersLoop] at hq
    rcases parseContainersLoop_mem cfg sel ts cs _ _ q hq with hacc | hex
    · rcases List.mem_append.mp hacc with h1 | h2
      · exact .inl h1
      · right
        refine ⟨c, hs, ?_⟩
        cases hp : (processContainer cfg sel ts c hs).1 with
        | none => rw [hp] at h2; simp at h2
        | some q2 =>
          rw [hp] at h2
          simp only [Option.toList_some, List.mem_singleton] at h2
          rw [h2]
    · exact .inr hex

theorem occursIn_of_isStartOf {needle : List Char} :
    ∀ {hay : List Char}, isStartOf needle hay = true → occursIn needle hay = true
  | [], h => by
    cases needle
    · rfl
    · simp [isStartOf] at h
  | d :: ds, h => by simp [occursIn, h]

theorem isStartOf_refl : ∀ l : List Char, isStartOf l l = true
  | [] => rfl
  | c :: cs => by simp [isStartOf, isStartOf_refl cs]

/-! ## Theorems for the claims -/

/-- C6: container selection in `parse_quotes` is first-match-wins over the
candidate list — extraction processes exactly the elements matched by the
first container selector that matches one or more elements, ignoring every
later candidate — and when no container selector matches any element the
extraction returns the empty record sequence (with the fingerprint set
unchanged) rather than failing. -/
theorem container_first_match_wins (cfg : Config) (soup : Soup)
    (sel : SelectorSet) (ts : String) (hashes : List PyStr) :
    (∀ (pre : List String) (s : String) (post : List String),
      ensure_list sel.quotes = pre ++ s :: post →
      (∀ x ∈ pre, soup.select x = []) → soup.select s ≠ [] →
      parse_quotes cfg soup sel ts hashes =
        parseContainersLoop cfg sel ts (soup.select s) [] hashes) ∧
    ((∀ x ∈ ensure_list sel.quotes, soup.select x = []) →
      parse_quotes cfg soup sel ts hashes = ([], hashes)) := by
  constructor
  · intro pre s post hdec hpre hs
    unfold parse_quotes
    rw [hdec, findContainersLoop_first_match soup pre s post hpre hs]
  · intro hall
    unfold parse_quotes
    rw [findContainersLoop_no_match soup _ hall]
    rfl

/-- Concrete instance of C6: with container candidates `["a", "b"]` where
only `"b"` matches, extraction uses `"b"`'s elements. -/
theorem container_first_match_wins_witness :
    pageOnlyB.select "a" = [] ∧
    parse_quotes DEFAULT_CONFIG pageOnlyB selAB "t0" [] =
      parseContainersLoop DEFAULT_CONFIG selAB "t0" (pageOnlyB.select "b") [] [] :=
  ⟨rfl,
   (container_first_match_wins DEFAULT_CONFIG pageOnlyB selAB "t0" []).1
     ["a"] "b" [] rfl
     (by
       intro x hx
       rcases List.mem_singleton.mp hx with rfl
       rfl)
     (by simp [pageOnlyB])⟩

/-- C7: tag resolution is a union over all candidates: `_find_tags` returns
the concatenation, in candidate order, of the non-empty stripped texts of
every element matched by every non-falsy tag selector candidate — later
candidates contribute even when an earlier one matched, and repeated texts
from distinct matched elements are kept. -/
theorem tag_union_semantics (c : Container) :
    (∀ sels : List String,
      find_tags c (.many sels) =
        (sels.map (fun s => if s = "" then []
          else ((c.selectAll s).map Elem.text).filter
            (fun t => !t.isEmpty))).flatten) ∧
    (∀ s1 s2 : String, s1 ≠ "" → s2 ≠ "" →
      find_tags c (.many [s1, s2]) =
        ((c.selectAll s1).map Elem.text).filter (fun t => !t.isEmpty) ++
        ((c.selectAll s2).map Elem.text).filter (fun t => !t.isEmpty)) := by
  constructor
  · intro sels
    simp [find_tags, ensure_list, findTagsLoop_eq c sels]
  · intro s1 s2 h1 h2
    simp [find_tags, ensure_list, findTagsLoop_eq c [s1, s2], h1, h2]

/-- Concrete instance of C7: two tag candidates with overlapping matches
contribute all their elements in order, duplicates kept. -/
theorem tag_union_semantics_witness :
    ¬("x" = "") ∧
    find_tags tagContainer (.many ["x", "y"]) =
      [pyStr "alpha", pyStr "beta", pyStr "alpha"] :=
  ⟨by decide,
   ((tag_union_semantics tagContainer).2 "x" "y" (by decide) (by decide)).trans
     rfl⟩

/-- C9 counterexample: a URL that merely contains the registered base URL
as an inner substring — it is neither equal to the base nor an extension of
it — is still resolved to the `toscrape` profile rather than to the generic
fallback, because `detect_site_type` uses the Python substring test
`base_url in url`. -/
theorem selector_resolution_counterexample :
    claimMatchesBase "http://evil.example/?u=http://quotes.toscrape.com"
      "http://quotes.toscrape.com" = false ∧
    detect_site_type "http://evil.example/?u=http://quotes.toscrape.com" =
      toscrapeSelectors ∧
    toscrapeSelectors ≠ fallbackSelectors := by
  refine ⟨by decide, by decide, by decide⟩

/-- C9 amended: selector resolution is total and matches by substring
containment of the registered base URL — any seed URL containing the base
(in particular any URL equal to it or starting with it) resolves to the
`toscrape` profile, every other URL resolves to the generic fallback, and
either way the returned selector set has at least one candidate for every
field. -/
theorem selector_resolution_substring (url : String) :
    (occursIn "http://quotes.toscrape.com".toList url.toList = true →
      detect_site_type url = toscrapeSelectors) ∧
    (occursIn "http://quotes.toscrape.com".toList url.toList = false →
      detect_site_type url = fallbackSelectors) ∧
    (claimMatchesBase url "http://quotes.toscrape.com" = true →
      detect_site_type url = toscrapeSelectors) ∧
    (ensure_list (detect_site_type url).quotes ≠ [] ∧
     ensure_list (detect_site_type url).text ≠ [] ∧
     ensure_list (detect_site_type url).author ≠ [] ∧
     ensure_list (detect_site_type url).tags ≠ [] ∧
     ensure_list (detect_site_type url).next_page ≠ []) := by
  have hexp : detect_site_type url =
      (if occursIn "http://quotes.toscrape.com".toList url.toList = true then
        some toscrapeSelectors else none).getD fallbackSelectors := rfl
  have h1 : occursIn "http://quotes.toscrape.com".toList url.toList = true →
      detect_site_type url = toscrapeSelectors := by
    intro h
    rw [hexp, h]
    rfl
  have h2 : occursIn "http://quotes.toscrape.com".toList url.toList = false →
      detect_site_type url = fallbackSelectors := by
    intro h
    rw [hexp, h]
    rfl
  refine ⟨h1, h2, ?_, ?_⟩
  · intro hb
    simp only [claimMatchesBase, Bool.or_eq_true, decide_eq_true_eq] at hb
    rcases hb with heq | hpre
    · have : url = "http://quotes.toscrape.com" := by
        simpa using heq
      subst this
      exact h1 (occursIn_of_isStartOf (isStartOf_refl _))
    · exact h1 (occursIn_of_isStartOf hpre)
  · cases hoc : occursIn "http://quotes.toscrape.com".toList url.toList
    · rw [h2 hoc]
      refine ⟨by decide, by decide, by decide, by decide, by decide⟩
    · rw [h1 hoc]
      refine ⟨by decide, by decide, by decide, by decide, by decide⟩

/-- Concrete instance of the amended C9: a URL extending the base resolves
to the `toscrape` profile. -/
theorem selector_resolution_substring_witness :
    occursIn "http://quotes.toscrape.com".toList
      "http://quotes.toscrape.com/page/2/".toList = true ∧
    detect_site_type "http://quotes.toscrape.com/page/2/" = toscrapeSelectors :=
  ⟨by decide,
   (selector_resolution_substring "http://quotes.toscrape.com/page/2/").1
     (by decide)⟩

/-- C10: a container on which no text selector candidate yields non-empty
trimmed text emits no record and leaves the fingerprint set untouched; a
container whose author lookup fails is not skipped — any record it emits
carries the literal `"Unknown"` author; and (for a positive minimum length)
every record emitted by `parse_quotes` has non-empty text. -/
theorem missing_text_skips_container (cfg : Config) (sel : SelectorSet)
    (ts : String) :
    (∀ (c : Container) (hashes : List PyStr),
      find_element_text c sel.text = none →
      processContainer cfg sel ts c hashes = (none, hashes)) ∧
    (∀ (c : Container) (hashes : List PyStr) (q : Quote),
      find_element_text c sel.author = none →
      (processContainer cfg sel ts c hashes).1 = some q →
      q.author = pyStr "Unknown") ∧
    (∀ (soup : Soup) (hashes : List PyStr) (q : Quote),
      1 ≤ cfg.min_quote_length →
      q ∈ (parse_quotes cfg soup sel ts hashes).1 → q.quote ≠ []) := by
  refine ⟨?_, ?_, ?_⟩
  · intro c hashes hnone
    simp [processContainer, hnone]
  · intro c hashes q hanone hq
    rcases processContainer_some hq with ⟨qt, hqt, hq2, hlen⟩
    rw [hq2]
    show pyStrip ((find_element_text c sel.author).getD (pyStr "Unknown")) =
      pyStr "Unknown"
    rw [hanone]
    decide
  · intro soup hashes q hmin hq
    rcases parseContainersLoop_mem cfg sel ts _ [] hashes q hq with h0 | hex
    · cases h0
    · rcases hex with ⟨c, hs2, hp⟩
      rcases processContainer_some hp with ⟨qt, hqt, hq2, hlen⟩
      intro hnil
      rw [hnil] at hlen
      simp at hlen
      omega

/-- Concrete instance of C10: a container with no text match emits no
record. -/
theorem missing_text_skips_container_witness :
    find_element_text bareContainer selAB.text = none ∧
    processContainer DEFAULT_CONFIG selAB "t0" bareContainer [] = (none, []) :=
  ⟨rfl,
   (missing_text_skips_container DEFAULT_CONFIG selAB "t0").1 bareContainer []
     rfl⟩

/-- C2: the deduplication fingerprint is invariant under upper-casing of
either argument and under whitespace padding of either argument, and it is
exactly the lowercased, trimmed text joined to the lowercased, trimmed
author by the separator code point 124. -/
theorem fingerprint_stability (text author ws1 ws2 ws3 ws4 : PyStr)
    (h1 : ∀ n ∈ ws1, pyIsSpaceCode n = true)
    (h2 : ∀ n ∈ ws2, pyIsSpaceCode n = true)
    (h3 : ∀ n ∈ ws3, pyIsSpaceCode n = true)
    (h4 : ∀ n ∈ ws4, pyIsSpaceCode n = true) :
    generate_quote_hash (pyUpper text) (pyUpper author) =
      generate_quote_hash text author ∧
    generate_quote_hash (ws1 ++ text ++ ws2) (ws3 ++ author ++ ws4) =
      generate_quote_hash text author ∧
    generate_quote_hash text author =
      pyLower (pyStrip text) ++ 124 :: pyLower (pyStrip author) := by
  refine ⟨?_, ?_, rfl⟩
  · simp only [generate_quote_hash, pyStrip_pyUpper, pyLower_pyUpper]
  · simp only [generate_quote_hash, pyStrip_pad text h1 h2, pyStrip_pad author h3 h4]

/-- C3: starting from a fresh deduplication index, the first uniqueness
check of a record answers true and registers its fingerprint, a subsequent
check of any record with the same fingerprint answers false, feeding the
two records through the dedup filter accepts exactly the first one, and in
general no two accepted records of a run share a fingerprint. -/
theorem dedup_idempotence (q q2 : Quote)
    (hsame : generate_quote_hash q2.quote q2.author =
      generate_quote_hash q.quote q.author) :
    (is_unique_quote [] q).1 = true ∧
    (is_unique_quote (is_unique_quote [] q).2 q2).1 = false ∧
    (dedupRun [] [q, q2]).1 = [q] ∧
    ∀ (qs : List Quote) (hs : List PyStr),
      ((dedupRun hs qs).1.map fingerprintOf).Nodup := by
  refine ⟨by simp [is_unique_quote], ?_, ?_, fun qs hs => dedupRun_nodup qs hs⟩
  · simp [is_unique_quote, hsame]
  · simp [dedupRun, is_unique_quote, hsame]

/-- Concrete instance of C3: the same quote presented twice, the second
time upper-cased and whitespace-padded, is accepted exactly once. -/
theorem dedup_idempotence_witness :
    generate_quote_hash (pyStr " HELLO WORLD ") (pyStr " ADA LOVELACE ") =
      generate_quote_hash (pyStr "Hello world") (pyStr "Ada Lovelace") ∧
    (dedupRun []
      [⟨pyStr "Hello world", pyStr "Ada Lovelace", [], 0, "t0"⟩,
       ⟨pyStr " HELLO WORLD ", pyStr " ADA LOVELACE ", [], 0, "t1"⟩]).1 =
      [⟨pyStr "Hello world", pyStr "Ada Lovelace", [], 0, "t0"⟩] :=
  ⟨by decide,
   (dedup_idempotence
      ⟨pyStr "Hello world", pyStr "Ada Lovelace", [], 0, "t0"⟩
      ⟨pyStr " HELLO WORLD ", pyStr " ADA LOVELACE ", [], 0, "t1"⟩
      (by decide)).2.2.1⟩

/-- C4: for trimmed candidate texts that pass content validation, the
length bounds of `_create_quote_object` are inclusive — length exactly
`min_quote_length` is accepted, one character shorter is rejected, length
exactly `max_quote_length` is accepted, one character longer is rejected —
and every created record satisfies the length invariant and has
`tags_count` equal to the length of its tag sequence. -/
theorem length_validation_boundaries (cfg : Config) (author : PyStr)
    (tags : List PyStr) (ts : String) :
    (∀ t : PyStr, pyStrip t = t → validate_quote_content t = true →
      t.length = cfg.min_quote_length →
      cfg.min_quote_length ≤ cfg.max_quote_length →
      (create_quote_object cfg t author tags ts).isSome = true) ∧
    (∀ t : PyStr, pyStrip t = t → t.length + 1 = cfg.min_quote_length →
      create_quote_object cfg t author tags ts = none) ∧
    (∀ t : PyStr, pyStrip t = t → validate_quote_content t = true →
      t.length = cfg.max_quote_length →
      cfg.min_quote_length ≤ cfg.max_quote_length →
      (create_quote_object cfg t author tags ts).isSome = true) ∧
    (∀ t : PyStr, pyStrip t = t → t.length = cfg.max_quote_length + 1 →
      create_quote_object cfg t author tags ts = none) ∧
    (∀ (qt : PyStr) (q : Quote),
      create_quote_object cfg qt author tags ts = some q →
      cfg.min_quote_length ≤ q.quote.length ∧
      q.quote.length ≤ cfg.max_quote_length ∧
      q.tags_count = q.tags.length) := by
  refine ⟨?_, ?_, ?_, ?_, ?_⟩
  · intro t hstrip hvalid hlen hle
    simp only [create_quote_object, hstrip, hvalid]
    rw [if_neg (by omega)]
    simp
  · intro t hstrip hlen
    simp only [create_quote_object, hstrip]
    rw [if_pos (by omega)]
  · intro t hstrip hvalid hlen hle
    simp only [create_quote_object, hstrip, hvalid]
    rw [if_neg (by omega)]
    simp
  · intro t hstrip hlen
    simp only [create_quote_object, hstrip]
    rw [if_pos (by omega)]
  · intro qt q hq
    simp only [create_quote_object] at hq
    split_ifs at hq with h1 h2
    cases hq
    refine ⟨?_, ?_, rfl⟩
    · show cfg.min_quote_length ≤ (pyStrip qt).length
      omega
    · show (pyStrip qt).length ≤ cfg.max_quote_length
      omega

/-- Concrete instance of C4 at the default configuration: a ten-character
text is accepted, a nine-character text is rejected. -/
theorem length_validation_boundaries_witness :
    (create_quote_object DEFAULT_CONFIG (pyStr "abcdefghij") (pyStr "A")
      [] "t0").isSome = true ∧
    create_quote_object DEFAULT_CONFIG (pyStr "abcdefghi") (pyStr "A")
      [] "t0" = none :=
  ⟨(length_validation_boundaries DEFAULT_CONFIG (pyStr "A") [] "t0").1
      (pyStr "abcdefghij") (by decide) (by decide) (by decide) (by decide),
   (length_validation_boundaries DEFAULT_CONFIG (pyStr "A") [] "t0").2.1
      (pyStr "abcdefghi") (by decide) (by decide)⟩

/-- C5 counterexample: the ten-underscore text has ten non-alphanumeric,
non-whitespace characters — a ratio of 1.0, far above 0.3 — so the claim
requires it to be rejected, yet `validate_quote_content` accepts it: the
code's regex class `[^\w\s]` treats the underscore as a word character and
counts zero special characters here. -/
theorem content_validation_counterexample :
    3 * (pyStr "__________").length <
      10 * claimSpecialCharCount (pyStr "__________") ∧
    validate_quote_content (pyStr "__________") = true := by decide

/-- C5 amended: content validation rejects exactly the non-empty texts
consisting solely of digits and the texts whose count of non-word
(non-alphanumeric and non-underscore), non-whitespace characters strictly
exceeds 0.3 times the total length; every other text passes. -/
theorem content_validation_characterization (t : PyStr) :
    validate_quote_content t = false ↔
      (t ≠ [] ∧ t.all pyIsDigitCode = true) ∨
      3 * t.length < 10 * specialCharCount t := by
  simp only [validate_quote_content]
  split_ifs with hd hr
  · simp only [eq_self_iff_true, true_iff]
    left
    simp only [pyIsDigitStr, Bool.and_eq_true, Bool.not_eq_true'] at hd
    exact ⟨by simpa using List.isEmpty_eq_false.mp hd.1, hd.2⟩
  · simp only [eq_self_iff_true, true_iff]
    right
    exact hr
  · simp only [Bool.true_eq_false, false_iff]
    push_neg
    refine ⟨?_, by omega⟩
    intro hne hall
    simp only [pyIsDigitStr, Bool.and_eq_true, Bool.not_eq_true'] at hd
    exact hd ⟨by simpa using hne, hall⟩

/-- Concrete instance of C2 at an explicit text/author pair and explicit
whitespace padding. -/
theorem fingerprint_stability_witness :
    (∀ n ∈ pyStr " ", pyIsSpaceCode n = true) ∧
    generate_quote_hash (pyUpper (pyStr "To be")) (pyUpper (pyStr "Shakespeare")) =
      generate_quote_hash (pyStr "To be") (pyStr "Shakespeare") ∧
    generate_quote_hash (pyStr " " ++ pyStr "To be" ++ pyStr " ")
        (pyStr " " ++ pyStr "Shakespeare" ++ pyStr " ") =
      generate_quote_hash (pyStr "To be") (pyStr "Shakespeare") :=
  ⟨by decide,
   (fingerprint_stability (pyStr "To be") (pyStr "Shakespeare")
      (pyStr " ") (pyStr " ") (pyStr " ") (pyStr " ")
      (by decide) (by decide) (by decide) (by decide)).1,
   (fingerprint_stability (pyStr "To be") (pyStr "Shakespeare")
      (pyStr " ") (pyStr " ") (pyStr " ") (pyStr " ")
      (by decide) (by decide) (by decide) (by decide)).2.1⟩

/-! ## Helper lemmas on the pagination walker -/

theorem walk_visited {cfg : Config} {fetch : String → Except String Soup}
    {resolve : String → String → String} {sel : SelectorSet} {ts : String}
    {fuel : Nat} {st : ParserState} {url : String}
    (h : url ∈ st.visited_urls) :
    parseAllPagesLoop cfg fetch resolve sel ts (fuel + 1) st (some url) =
      ⟨st, [], true⟩ := by
  simp [parseAllPagesLoop, h]

theorem walk_fetch_error {cfg : Config} {fetch : String → Except String Soup}
    {resolve : String → String → String} {sel : SelectorSet} {ts : String}
    {fuel : Nat} {st : ParserState} {url : String} {e : String}
    (hmem : url ∉ st.visited_urls) (he : fetch url = .error e) :
    parseAllPagesLoop cfg fetch resolve sel ts (fuel + 1) st (some url) =
      ⟨{ st with stats := { st.stats with
          failed_requests := st.stats.failed_requests + 1 } }, [], true⟩ := by
  simp [parseAllPagesLoop, hmem, he]

theorem walk_fetch_ok_done {cfg : Config} {fetch : String → Except String Soup}
    {resolve : String → String → String} {sel : SelectorSet} {ts : String}
    {fuel : Nat} {st : ParserState} {url : String} {soup : Soup}
    (hmem : url ∉ st.visited_urls) (hok : fetch url = .ok soup)
    (hnext : has_next_page soup sel = none) :
    parseAllPagesLoop cfg fetch resolve sel ts (fuel + 1) st (some url) =
      ⟨pageStep cfg sel ts st url soup, [url], true⟩ := by
  simp [parseAllPagesLoop, hmem, hok, hnext]

theorem walk_fetch_ok_next {cfg : Config} {fetch : String → Except String Soup}
    {resolve : String → String → String} {sel : SelectorSet} {ts : String}
    {fuel : Nat} {st : ParserState} {url : String} {soup : Soup} {np : String}
    (hmem : url ∉ st.visited_urls) (hok : fetch url = .ok soup)
    (hnext : has_next_page soup sel = some np) :
    parseAllPagesLoop cfg fetch resolve sel ts (fuel + 1) st (some url) =
      ⟨(parseAllPagesLoop cfg fetch resolve sel ts fuel
          (pageStep cfg sel ts st url soup) (some (resolve url np))).state,
       url :: (parseAllPagesLoop cfg fetch resolve sel ts fuel
          (pageStep cfg sel ts st url soup) (some (resolve url np))).fetched,
       (parseAllPagesLoop cfg fetch resolve sel ts fuel
          (pageStep cfg sel ts st url soup) (some (resolve url np))).finished⟩ := by
  simp [parseAllPagesLoop, hmem, hok, hnext]

theorem walk_fetched_avoids_visited (cfg : Config)
    (fetch : String → Except String Soup) (resolve : String → String → String)
    (sel : SelectorSet) (ts : String) :
    ∀ (fuel : Nat) (st : ParserState) (cur : Option String) (u : String),
      u ∈ (parseAllPagesLoop cfg fetch resolve sel ts fuel st cur).fetched →
      u ∉ st.visited_urls
  | 0, st, cur, u, hu => by simp [parseAllPagesLoop] at hu
  | _ + 1, st, none, u, hu => by simp [parseAllPagesLoop] at hu
  | fuel + 1, st, some url, u, hu => by
    by_cases hmem : url ∈ st.visited_urls
    · rw [walk_visited hmem] at hu
      simp at hu
    · cases hfetch : fetch url with
      | error e =>
        rw [walk_fetch_error hmem hfetch] at hu
        simp at hu
      | ok soup =>
        cases hnext : has_next_page soup sel with
        | none =>
          rw [walk_fetch_ok_done hmem hfetch hnext] at hu
          simp only [List.mem_singleton] at hu
          subst hu
          exact hmem
        | some np =>
          rw [walk_fetch_ok_next hmem hfetch hnext] at hu
          simp only [List.mem_cons] at hu
          rcases hu with rfl | hu
          · exact hmem
          · intro hc
            have hrec := walk_fetched_avoids_visited cfg fetch resolve sel ts
              fuel (pageStep cfg sel ts st url soup)
              (some (resolve url np)) u hu
            exact hrec (List.mem_cons_of_mem url hc)

theorem walk_fetched_nodup (cfg : Config)
    (fetch : String → Except String Soup) (resolve : String → String → String)
    (sel : SelectorSet) (ts : String) :
    ∀ (fuel : Nat) (st : ParserState) (cur : Option String),
      (parseAllPagesLoop cfg fetch resolve sel ts fuel st cur).fetched.Nodup
  | 0, st, cur => by simp [parseAllPagesLoop]
  | _ + 1, st, none => by simp [parseAllPagesLoop]
  | fuel + 1, st, some url => by
    by_cases hmem : url ∈ st.visited_urls
    · rw [walk_visited hmem]
      simp
    · cases hfetch : fetch url with
      | error e =>
        rw [walk_fetch_error hmem hfetch]
        simp
      | ok soup =>
        cases hnext : has_next_page soup sel with
        | none =>
          rw [walk_fetch_ok_done hmem hfetch hnext]
          simp
        | some np =>
          rw [walk_fetch_ok_next hmem hfetch hnext]
          simp only [List.nodup_cons]
          refine ⟨?_, walk_fetched_nodup cfg fetch resolve sel ts fuel _ _⟩
          intro hc
          have := walk_fetched_avoids_visited cfg fetch resolve sel ts fuel
            (pageStep cfg sel ts st url soup) (some (resolve url np)) url hc
          exact this (List.mem_cons_self url st.visited_urls)

/-- C1: the pagination walk never fetches a URL twice. When the fetched
page's next link resolves to an already-visited URL (the current one
included), the walk stops after that page through the loop's own exit, for
every sufficient step budget; a two-page cycle started from a fresh state
is traversed finitely, fetching each of the two pages exactly once; and in
full generality the fetched-URL list of any walk has no duplicates. -/
theorem pagination_termination :
    (∀ (cfg : Config) (fetch : String → Except String Soup)
       (resolve : String → String → String) (ts : String) (st : ParserState)
       (url : String) (soup : Soup) (np : String) (fuel : Nat),
      url ∉ st.visited_urls → fetch url = .ok soup →
      has_next_page soup (detect_site_type url) = some np →
      resolve url np ∈ url :: st.visited_urls →
      parse_all_pages cfg fetch resolve ts st url (fuel + 1 + 1) =
        ⟨pageStep cfg (detect_site_type url) ts st url soup, [url], true⟩) ∧
    (∀ (cfg : Config) (fetch : String → Except String Soup)
       (resolve : String → String → String) (ts : String)
       (A B : String) (soupA soupB : Soup) (nA nB : String) (fuel : Nat),
      A ≠ B → fetch A = .ok soupA → fetch B = .ok soupB →
      has_next_page soupA (detect_site_type A) = some nA → resolve A nA = B →
      has_next_page soupB (detect_site_type A) = some nB → resolve B nB = A →
      (parse_all_pages cfg fetch resolve ts initialState A
        (fuel + 1 + 1 + 1)).fetched = [A, B] ∧
      (parse_all_pages cfg fetch resolve ts initialState A
        (fuel + 1 + 1 + 1)).finished = true) ∧
    (∀ (cfg : Config) (fetch : String → Except String Soup)
       (resolve : String → String → String) (ts : String) (st : ParserState)
       (url : String) (fuel : Nat),
      (parse_all_pages cfg fetch resolve ts st url fuel).fetched.Nodup) := by
  refine ⟨?_, ?_, ?_⟩
  · intro cfg fetch resolve ts st url soup np fuel hmem hok hnext hvis
    unfold parse_all_pages
    rw [walk_fetch_ok_next hmem hok hnext]
    have hv : resolve url np ∈
        (pageStep cfg (detect_site_type url) ts st url soup).visited_urls := hvis
    rw [walk_visited hv]
  · intro cfg fetch resolve ts A B soupA soupB nA nB fuel hAB hokA hokB hnA
      hresA hnB hresB
    have hmemA : A ∉ initialState.visited_urls := List.not_mem_nil A
    have key : parse_all_pages cfg fetch resolve ts initialState A
        (fuel + 1 + 1 + 1) =
        ⟨pageStep cfg (detect_site_type A) ts
           (pageStep cfg (detect_site_type A) ts initialState A soupA) B soupB,
         [A, B], true⟩ := by
      unfold parse_all_pages
      rw [walk_fetch_ok_next hmemA hokA hnA, hresA]
      have hmemB : B ∉ (pageStep cfg (detect_site_type A) ts initialState A
          soupA).visited_urls := by
        show B ∉ [A]
        simp only [List.mem_singleton]
        exact fun h => hAB h.symm
      rw [walk_fetch_ok_next hmemB hokB hnB, hresB]
      have hvA : A ∈ (pageStep cfg (detect_site_type A) ts
          (pageStep cfg (detect_site_type A) ts initialState A soupA) B
          soupB).visited_urls := by
        show A ∈ [B, A]
        simp
      rw [walk_visited hvA]
    exact ⟨by rw [key], by rw [key]⟩
  · intro cfg fetch resolve ts st url fuel
    exact walk_fetched_nodup cfg fetch resolve (detect_site_type url) ts fuel
      st (some url)

/-- Concrete instance of C1: two pages whose next links point at each other
are each fetched exactly once and the walk finishes. -/
theorem pagination_termination_witness :
    ("http://cycle.example/a" : String) ≠ "http://cycle.example/b" ∧
    (parse_all_pages DEFAULT_CONFIG cycleFetch (fun _ np => np) "t0"
      initialState "http://cycle.example/a" (0 + 1 + 1 + 1)).fetched =
      ["http://cycle.example/a", "http://cycle.example/b"] :=
  ⟨by decide,
   (pagination_termination.2.1 DEFAULT_CONFIG cycleFetch (fun _ np => np) "t0"
      "http://cycle.example/a" "http://cycle.example/b" cycleSoupA cycleSoupB
      "http://cycle.example/b" "http://cycle.example/a" 0
      (by decide) rfl rfl rfl rfl rfl rfl).1⟩

theorem retryGo_all_fail {ε α : Type} (f : Nat → Except ε α) (e : Nat → ε) :
    ∀ (rem attempt : Nat),
      (∀ i, attempt ≤ i → i ≤ attempt + rem → f i = .error (e i)) →
      retryGo f attempt rem = .error (e (attempt + rem))
  | 0, attempt, h => by
    simpa [retryGo] using h attempt le_rfl (by omega)
  | rem + 1, attempt, h => by
    have hf : f attempt = .error (e attempt) := h attempt le_rfl (by omega)
    have hrec := retryGo_all_fail f e rem (attempt + 1)
      (fun i h1 h2 => h i (by omega) (by omega))
    rw [show attempt + (rem + 1) = attempt + 1 + rem from by omega]
    simp only [retryGo, hf]
    exact hrec

/-- C8: a fetch whose every attempt up to `max_retries` fails surfaces the
last attempt's error out of the retry wrapper, and the walker then ends
that seed's traversal with the failed-request counter incremented by
exactly one for the whole exhausted fetch, not once per attempt. -/
theorem retry_exhaustion (mr : Nat)
    (attempts : String → Nat → Except String Soup) (e : Nat → String)
    (seed : String) (cfg : Config) (resolve : String → String → String)
    (ts : String) (st : ParserState) (fuel : Nat)
    (hmr : 1 ≤ mr) (hseed : seed ∉ st.visited_urls)
    (hfail : ∀ i, i < mr → attempts seed i = .error (e i)) :
    fetch_page mr attempts seed = .error (e (mr - 1)) ∧
    parse_all_pages cfg (fetch_page mr attempts) resolve ts st seed (fuel + 1) =
      ⟨{ st with stats := { st.stats with
          failed_requests := st.stats.failed_requests + 1 } }, [], true⟩ := by
  have hfp : fetch_page mr attempts seed = .error (e (mr - 1)) := by
    unfold fetch_page retry_on_failure
    have := retryGo_all_fail (attempts seed) e (mr - 1) 0
      (fun i h1 h2 => hfail i (by omega))
    simpa using this
  refine ⟨hfp, ?_⟩
  unfold parse_all_pages
  exact walk_fetch_error hseed hfp

/-- Concrete instance of C8: a fetcher failing all three attempts leaves
the walk with exactly one failed request and no fetched page. -/
theorem retry_exhaustion_witness :
    (1 ≤ 3) ∧
    fetch_page 3 (fun _ _ => .error "boom") "http://seed.example/" =
      .error "boom" ∧
    (parse_all_pages DEFAULT_CONFIG (fetch_page 3 (fun _ _ => .error "boom"))
      (fun _ np => np) "t0" initialState "http://seed.example/"
      (0 + 1)).state.stats.failed_requests = 1 :=
  ⟨by decide,
   (retry_exhaustion 3 (fun _ _ => .error "boom") (fun _ => "boom")
      "http://seed.example/" DEFAULT_CONFIG (fun _ np => np) "t0" initialState
      0 (by decide) (List.not_mem_nil _) (fun i _ => rfl)).1,
   by
     rw [(retry_exhaustion 3 (fun _ _ => .error "boom") (fun _ => "boom")
       "http://seed.example/" DEFAULT_CONFIG (fun _ np => np) "t0" initialState
       0 (by decide) (List.not_mem_nil _) (fun i _ => rfl)).2]
     rfl⟩

end DZ
